import Mathlib

set_option maxHeartbeats 1000000
set_option maxRecDepth 8192

/-!
A shallow embedding of the CHIP-8 interpreter core in `src/cpu.rs`, together
with proofs about its decoder, dispatcher, execution loop and program loader.

Conventions of the embedding:
* 8-bit and 16-bit machine integers are embedded as `Nat`; wraparound is made
  explicit (`% 256`, `% 65536`) exactly where the Rust code wraps.
* The fixed arrays `registers : [u8; 16]` and `memory : [u8; 0x1000]` are
  embedded as functions `Nat → Nat`; every access that can panic in Rust
  (out-of-range indexing, `Option::unwrap`) is guarded explicitly and the
  enclosing operation returns `none` on the panicking path.
* `stack : Vec<usize>` is embedded as `List Nat` with the head of the list
  playing the role of the growing end of the vector (`push` conses, `pop`
  takes the head), preserving the LIFO discipline of the source.
* The display collaborator `Option<Box<Render>>` is embedded as an optional
  function on screens, and the process-wide random generator is embedded as
  an extra `rnd` argument to the dispatcher holding the byte that
  `thread_rng().gen::<u8>()` returns in the `0xC` branch.
-/

/-- The 64×32 monochrome screen of the emulator (`[[bool; 64]; 32]`):
`scr row col` is the pixel in row `row`, column `col`. -/
def Screen := Nat → Nat → Bool

/-- Pointwise update of a function `Nat → Nat`, modelling a store into one
cell of a Rust array. -/
def upd (f : Nat → Nat) (i v : Nat) : Nat → Nat :=
  fun j => if j = i then v else f j

/-- `pub type Opcode = u16`, embedded as `Nat` (values of interest < 65536). -/
abbrev Opcode := Nat

/-- Decoder field `nnn` (address): `self & 0x0FFF`. -/
def Opcode.nnn (op : Opcode) : Nat := op &&& 0x0FFF

/-- Decoder field `nn` (8-bit constant): `(self & 0x00FF) as u8`; the mask
already bounds the value below 256, so the `u8` cast is the identity. -/
def Opcode.nn (op : Opcode) : Nat := op &&& 0x00FF

/-- Decoder field `n` (4-bit constant): `(self & 0x000F) as u8`. -/
def Opcode.n (op : Opcode) : Nat := op &&& 0x000F

/-- Decoder field `x` (register selector): `((self & 0x0F00) >> 8) as u8`. -/
def Opcode.x (op : Opcode) : Nat := (op &&& 0x0F00) >>> 8

/-- Decoder field `y` (register selector): `((self & 0x00F0) >> 4) as u8`. -/
def Opcode.y (op : Opcode) : Nat := (op &&& 0x00F0) >>> 4

/-- The processor state `struct Chip8`. -/
structure Chip8 where
  /-- `registers: [u8; 16]` — V0 to VF, each one byte. -/
  registers : Nat → Nat
  /-- `stack: Vec<usize>` — return addresses; list head = top of the vector. -/
  stack : List Nat
  /-- `memory: [u8; 0x1000]` — 4096 bytes of addressable memory. -/
  memory : Nat → Nat
  /-- `index: u16` — the address register I. -/
  index : Nat
  /-- `counter: usize` — the program counter. -/
  counter : Nat
  /-- `delay: u8` — the delay timer. -/
  delay : Nat
  /-- `sound: u8` — the sound timer. -/
  sound : Nat
  /-- `screen: [[bool; 64]; 32]`. -/
  screen : Screen
  /-- `renderer: Option<Box<Render>>` — the optional display collaborator,
  embedded by its one capability `clear`, a function on screens. -/
  renderer : Option (Screen → Screen)

/-- `Chip8::new`: zeroed registers, empty stack, zeroed memory, index 0,
counter 0x200, zeroed timers, blank screen, the given renderer. -/
def Chip8.new (renderer : Option (Screen → Screen)) : Chip8 where
  registers := fun _ => 0
  stack := []
  memory := fun _ => 0
  index := 0
  counter := 0x200
  delay := 0
  sound := 0
  screen := fun _ _ => false
  renderer := renderer

/-- The write loop of opcode `0xFx55`:
`for i in 0 .. (x + 1) { memory[index + i] = registers[i] }`,
unrolled from the high end (`storeLoop regs mem idx k` performs the writes
for `i = 0, …, k-1` in ascending order).  A write at an address ≥ 0x1000
panics in Rust; that path yields `none`. -/
def storeLoop (regs mem : Nat → Nat) (idx : Nat) : Nat → Option (Nat → Nat)
  | 0 => some mem
  | k + 1 =>
    match storeLoop regs mem idx k with
    | some m => if idx + k < 0x1000 then some (upd m (idx + k) (regs k)) else none
    | none => none

/-- The read loop of opcode `0xFx65`:
`for i in 0 .. (x + 1) { registers[i] = memory[index + i] }`,
with the same unrolling and panic convention as `storeLoop`. -/
def loadLoop (regs mem : Nat → Nat) (idx : Nat) : Nat → Option (Nat → Nat)
  | 0 => some regs
  | k + 1 =>
    match loadLoop regs mem idx k with
    | some r => if idx + k < 0x1000 then some (upd r k (mem (idx + k))) else none
    | none => none

/-- `Chip8::emulate`: dispatch one opcode against the processor state.
`rnd` is the byte produced by `thread_rng().gen::<u8>()`, consumed only by
the `0xC` family.  The result is `none` exactly on the panicking paths of
the source (`stack.pop().unwrap()` on an empty stack, and out-of-range
memory indexing in the `0xFx55`/`0xFx65` loops). -/
def emulate (rnd : Nat) (op : Opcode) (s : Chip8) : Option Chip8 :=
  let fam := op &&& 0xF000
  if fam = 0x0000 then
    -- 0x00E0: clears the screen through the renderer, if one is attached.
    if op = 0x00E0 then
      match s.renderer with
      | some clear => some { s with screen := clear s.screen }
      | none => some s
    -- 0x00EE: returns from a subroutine; `pop().unwrap()` panics on empty.
    else if op = 0x00EE then
      match s.stack with
      | c :: rest => some { s with counter := c, stack := rest }
      | [] => none
    -- RCA 1802 call: not_implemented!(), state untouched.
    else some s
  -- 0x1nnn: jumps to address.
  else if fam = 0x1000 then
    some { s with counter := Opcode.nnn op }
  -- 0x2nnn: calls subroutine (push current counter, then set counter).
  else if fam = 0x2000 then
    some { s with stack := s.counter :: s.stack, counter := Opcode.nnn op }
  -- 0x3xnn: skips the next instruction if VX equals NN.
  else if fam = 0x3000 then
    some (if s.registers (Opcode.x op) = Opcode.nn op then
      { s with counter := s.counter + 2 } else s)
  -- 0x4xnn: skips the next instruction if VX does not equal NN.
  else if fam = 0x4000 then
    some (if s.registers (Opcode.x op) ≠ Opcode.nn op then
      { s with counter := s.counter + 2 } else s)
  -- 0x5xy0: skips the next instruction if VX equals VY.
  else if fam = 0x5000 then
    some (if s.registers (Opcode.x op) = s.registers (Opcode.y op) then
      { s with counter := s.counter + 2 } else s)
  -- 0x6xnn: sets VX to NN.
  else if fam = 0x6000 then
    some { s with registers := upd s.registers (Opcode.x op) (Opcode.nn op) }
  -- 0x7xnn: adds NN to VX with `u8::wrapping_add`.
  else if fam = 0x7000 then
    some { s with registers := (upd s.registers (Opcode.x op)
      ((s.registers (Opcode.x op) + Opcode.nn op) % 256)) }
  -- 0x8xyn: register-to-register operations selected by the low nibble.
  else if fam = 0x8000 then
    let mode := Opcode.n op
    if mode = 0x0 then
      some { s with registers := upd s.registers (Opcode.x op) (s.registers (Opcode.y op)) }
    else if mode = 0x1 then
      some { s with registers := (upd s.registers (Opcode.x op)
        (s.registers (Opcode.x op) ||| s.registers (Opcode.y op))) }
    else if mode = 0x2 then
      some { s with registers := (upd s.registers (Opcode.x op)
        (s.registers (Opcode.x op) &&& s.registers (Opcode.y op))) }
    else if mode = 0x3 then
      some { s with registers := (upd s.registers (Opcode.x op)
        (s.registers (Opcode.x op) ^^^ s.registers (Opcode.y op))) }
    -- mode 0x4: an empty block in the source (known gap); other modes:
    -- not_implemented!().  Either way the state is untouched.
    else some s
  -- 0x9xy0: not_implemented!().
  else if fam = 0x9000 then some s
  -- 0xAnnn: sets I to the address NNN.
  else if fam = 0xA000 then
    some { s with index := Opcode.nnn op }
  -- 0xBnnn: jumps to the address NNN plus V0 (u16 addition; the sum is at
  -- most 0xFFF + 0xFF, so it cannot wrap).
  else if fam = 0xB000 then
    some { s with counter := Opcode.nnn op + s.registers 0 }
  -- 0xCxnn: sets VX to (random byte) AND NN.
  else if fam = 0xC000 then
    some { s with registers := (upd s.registers (Opcode.x op)
      ((rnd % 256) &&& Opcode.nn op)) }
  -- 0xDxyn: sprite drawing, not_implemented!().
  else if fam = 0xD000 then some s
  -- 0xEx..: key input, not_implemented!().
  else if fam = 0xE000 then some s
  -- 0xFxnn: miscellaneous operations selected by the low byte.
  else if fam = 0xF000 then
    let mode := Opcode.nn op
    -- 0xFx07: sets VX to the delay timer.
    if mode = 0x07 then
      some { s with registers := upd s.registers (Opcode.x op) s.delay }
    -- 0xFx0A: blocking key wait, not_implemented!().
    else if mode = 0x0A then some s
    -- 0xFx15: the source assigns `op.x()` itself — the register selector,
    -- not the register's value — to the delay timer.
    else if mode = 0x15 then
      some { s with delay := Opcode.x op }
    -- 0xFx18: likewise assigns the selector `op.x()` to the sound timer.
    else if mode = 0x18 then
      some { s with sound := Opcode.x op }
    -- 0xFx1E: adds VX to I (u16 addition, wraparound made explicit).
    else if mode = 0x1E then
      some { s with index := (s.index + s.registers (Opcode.x op)) % 65536 }
    -- 0xFx29, 0xFx33: not_implemented!().
    else if mode = 0x29 then some s
    else if mode = 0x33 then some s
    -- 0xFx55: stores registers[0..=x] into memory starting at I.
    else if mode = 0x55 then
      match storeLoop s.registers s.memory s.index (Opcode.x op + 1) with
      | some m => some { s with memory := m }
      | none => none
    -- 0xFx65: loads registers[0..=x] from memory starting at I.
    else if mode = 0x65 then
      match loadLoop s.registers s.memory s.index (Opcode.x op + 1) with
      | some r => some { s with registers := r }
      | none => none
    -- other low bytes: not_implemented!().
    else some s
  -- unreachable for a u16 opcode: every 4-bit family has an arm above.
  else some s

/-- Whether dispatching `op` prints through the `not_implemented!` macro.
This mirrors the branch structure of `Chip8::emulate` exactly; it is the
observable "instruction not implemented" condition.  Note that mode `0x4`
of family `0x8` is an empty block in the source, not a report. -/
def emulateReports (op : Opcode) : Bool :=
  let fam := op &&& 0xF000
  if fam = 0x0000 then op != 0x00E0 && op != 0x00EE
  else if fam = 0x8000 then decide (5 ≤ Opcode.n op)
  else if fam = 0x9000 then true
  else if fam = 0xD000 then true
  else if fam = 0xE000 then true
  else if fam = 0xF000 then
    let mode := Opcode.nn op
    decide (mode = 0x0A ∨ mode = 0x29 ∨ mode = 0x33 ∨
      (mode ≠ 0x07 ∧ mode ≠ 0x15 ∧ mode ≠ 0x18 ∧ mode ≠ 0x1E ∧
        mode ≠ 0x55 ∧ mode ≠ 0x65))
  else if fam = 0x1000 ∨ fam = 0x2000 ∨ fam = 0x3000 ∨ fam = 0x4000 ∨
    fam = 0x5000 ∨ fam = 0x6000 ∨ fam = 0x7000 ∨ fam = 0xA000 ∨
    fam = 0xB000 ∨ fam = 0xC000 then false
  else true

/-- The outcome of `Chip8::load_file` on a byte sequence:
`ok` with the updated state, the capacity `Err` ("ROM is too large!"),
or a Rust panic from slicing `memory` out of range. -/
inductive LoadResult where
  | ok (s : Chip8)
  | capacityError
  | panic

/-- `Chip8::load_file`, restricted to its byte-sequence contract (the file
reading itself is an external concern): reject the image with the capacity
error when its length exceeds `0x1000 - 200` (the source mixes a hex top
with a decimal offset here); otherwise take the slice
`memory[0x200 .. 0x200 + len]` — which panics when `0x200 + len` exceeds
`0x1000` — and copy the image into it verbatim. -/
def load_file (s : Chip8) (program : List Nat) : LoadResult :=
  if program.length > 0x1000 - 200 then
    .capacityError
  else if 0x200 + program.length > 0x1000 then
    .panic
  else
    .ok { s with memory := (fun a =>
      if 0x200 ≤ a ∧ a < 0x200 + program.length then program.getD (a - 0x200) 0
      else s.memory a) }

/-- The fetch step of `Chip8::run`:
`let p1 = (memory[counter] as u16) << 8; let p2 = memory[counter + 1] as u16;
p1 + p2`. -/
def fetch (s : Chip8) : Opcode :=
  ((s.memory s.counter) <<< 8) + s.memory (s.counter + 1)

/-- One iteration of the loop in `Chip8::run`: fetch the opcode at the
program counter (the two memory reads panic when `counter + 1` is out of
range), dispatch it, then unconditionally advance `counter += 2`. -/
def stepRun (rnd : Nat) (s : Chip8) : Option Chip8 :=
  if s.counter + 1 < 0x1000 then
    match emulate rnd (fetch s) s with
    | some s2 => some { s2 with counter := s2.counter + 2 }
    | none => none
  else none

/-! ### Bitwise helper lemmas -/

/-- Masking with `0xFFF` is reduction modulo 4096. -/
theorem and4095_eq_mod (a : Nat) : a &&& 4095 = a % 4096 := by
  have h := Nat.and_pow_two_sub_one_eq_mod a 12
  norm_num at h
  exact h

/-- Masking with `0xFF` is reduction modulo 256. -/
theorem and255_eq_mod (a : Nat) : a &&& 255 = a % 256 := by
  have h := Nat.and_pow_two_sub_one_eq_mod a 8
  norm_num at h
  exact h

/-- Masking with `0xF` is reduction modulo 16. -/
theorem and15_eq_mod (a : Nat) : a &&& 15 = a % 16 := by
  have h := Nat.and_pow_two_sub_one_eq_mod a 4
  norm_num at h
  exact h

/-- Shifting right by 8 is division by 256. -/
theorem shiftRight8_eq_div (a : Nat) : a >>> 8 = a / 256 := by
  have h := Nat.shiftRight_eq_div_pow a 8
  norm_num at h
  exact h

/-- Shifting right by 4 is division by 16. -/
theorem shiftRight4_eq_div (a : Nat) : a >>> 4 = a / 16 := by
  have h := Nat.shiftRight_eq_div_pow a 4
  norm_num at h
  exact h

/-- Masking with a left-shifted mask and then shifting right equals shifting
right first and masking with the unshifted mask. -/
theorem and_shiftLeft_shiftRight (x m k : Nat) :
    (x &&& (m <<< k)) >>> k = (x >>> k) &&& m := by
  apply Nat.eq_of_testBit_eq
  intro i
  simp [Nat.testBit_shiftRight, Nat.testBit_and, Nat.testBit_shiftLeft,
    Nat.le_add_right, Nat.add_sub_cancel_left]

/-! ### Claim theorems -/

/-- C6: for every 16-bit opcode value, the decoder's five fields equal the
documented bitmask/shift results exactly — `nnn = op & 0x0FFF`,
`nn = op & 0x00FF`, `n = op & 0x000F`, `x = (op & 0x0F00) >> 8`,
`y = (op & 0x00F0) >> 4` — with no side effects and no failure mode (the
fields are total functions).  The second group of conjuncts restates the
same fields arithmetically, pinning down the values the masks and shifts
denote. -/
theorem decoder_fields (op : Opcode) :
    (Opcode.nnn op = op &&& 0x0FFF ∧ Opcode.nn op = op &&& 0x00FF ∧
     Opcode.n op = op &&& 0x000F ∧ Opcode.x op = (op &&& 0x0F00) >>> 8 ∧
     Opcode.y op = (op &&& 0x00F0) >>> 4) ∧
    (Opcode.nnn op = op % 4096 ∧ Opcode.nn op = op % 256 ∧
     Opcode.n op = op % 16 ∧ Opcode.x op = op / 256 % 16 ∧
     Opcode.y op = op / 16 % 16) := by
  refine ⟨⟨rfl, rfl, rfl, rfl, rfl⟩, ?_, ?_, ?_, ?_, ?_⟩
  · exact and4095_eq_mod op
  · exact and255_eq_mod op
  · exact and15_eq_mod op
  · show (op &&& 0x0F00) >>> 8 = op / 256 % 16
    rw [(by decide : (0x0F00 : Nat) = 15 <<< 8), and_shiftLeft_shiftRight,
      shiftRight8_eq_div, and15_eq_mod]
  · show (op &&& 0x00F0) >>> 4 = op / 16 % 16
    rw [(by decide : (0x00F0 : Nat) = 15 <<< 4), and_shiftLeft_shiftRight,
      shiftRight4_eq_div, and15_eq_mod]

/-- C7: dispatching an opcode of the form `0x7xnn` sets `registers[x]` to
`(registers[x] + nn) % 256` (wraparound addition), leaves every other
register unchanged, and has no effect on any other state component (in
particular no flag-register effect). -/
theorem add_immediate_wraps (rnd : Nat) (op : Opcode) (s : Chip8)
    (h : op &&& 0xF000 = 0x7000) :
    ∃ s', emulate rnd op s = some s' ∧
      s'.registers (Opcode.x op) = (s.registers (Opcode.x op) + Opcode.nn op) % 256 ∧
      (∀ j, j ≠ Opcode.x op → s'.registers j = s.registers j) ∧
      s'.stack = s.stack ∧ s'.memory = s.memory ∧ s'.index = s.index ∧
      s'.counter = s.counter ∧ s'.delay = s.delay ∧ s'.sound = s.sound ∧
      s'.screen = s.screen := by
  refine ⟨{ s with registers := (upd s.registers (Opcode.x op)
      ((s.registers (Opcode.x op) + Opcode.nn op) % 256)) },
    ?_, ?_, ?_, rfl, rfl, rfl, rfl, rfl, rfl, rfl⟩
  · simp [emulate, h]
  · simp [upd]
  · intro j hj
    simp [upd, hj]

/-- C7 witness: with `registers[0] = 0xFF`, dispatching `0x7001` leaves
`registers[0] = 0x00`. -/
theorem add_immediate_wraps_witness :
    (0x7001 &&& 0xF000 = 0x7000) ∧
    ∃ s', emulate 0 0x7001 { Chip8.new none with registers := upd (fun _ => 0) 0 0xFF }
        = some s' ∧ s'.registers 0 = 0 := by
  refine ⟨by decide, ?_⟩
  obtain ⟨s', h1, h2, -⟩ :=
    add_immediate_wraps 0 0x7001
      { Chip8.new none with registers := upd (fun _ => 0) 0 0xFF } (by decide)
  refine ⟨s', h1, ?_⟩
  norm_num [Opcode.x, Opcode.nn, upd, Chip8.new] at h2
  exact h2

/-- C5: dispatching an opcode of the form `0x2nnn` from a state with counter
`C` pushes `C` onto the stack and sets the counter to `nnn`; a subsequent
dispatch of `0x00EE` pops that value, restoring the entire state (counter
`C`, prior stack contents and all). -/
theorem call_return_roundtrip (rnd1 rnd2 : Nat) (op : Opcode) (s : Chip8)
    (h : op &&& 0xF000 = 0x2000) :
    ∃ s', emulate rnd1 op s = some s' ∧
      s'.stack = s.counter :: s.stack ∧ s'.counter = Opcode.nnn op ∧
      emulate rnd2 0x00EE s' = some s := by
  refine ⟨{ s with stack := s.counter :: s.stack, counter := Opcode.nnn op },
    ?_, rfl, rfl, rfl⟩
  simp [emulate, h]

/-- C5 witness: executing `0x2300` from the freshly constructed state
(counter `0x200`) pushes `0x200`, jumps to `0x300`, and `0x00EE` restores
the original state. -/
theorem call_return_roundtrip_witness :
    (0x2300 &&& 0xF000 = 0x2000) ∧
    ∃ s', emulate 0 0x2300 (Chip8.new none) = some s' ∧
      s'.stack = (Chip8.new none).counter :: (Chip8.new none).stack ∧
      s'.counter = Opcode.nnn 0x2300 ∧
      emulate 0 0x00EE s' = some (Chip8.new none) :=
  ⟨by decide, call_return_roundtrip 0 0 0x2300 (Chip8.new none) (by decide)⟩

/-- C9: for every opcode whose top 4 bits are not `0xC`, dispatch is
independent of the random byte: running it from equal states with any two
values of the generator yields equal resulting states — the random-mask
family `0xC` is the only source of nondeterminism in the dispatcher. -/
theorem dispatch_deterministic_except_random (rnd1 rnd2 : Nat) (op : Opcode)
    (s : Chip8) (h : op &&& 0xF000 ≠ 0xC000) :
    emulate rnd1 op s = emulate rnd2 op s := by
  simp [emulate, h]

/-- C9 witness: the jump opcode `0x1234` dispatches identically under two
different random bytes. -/
theorem dispatch_deterministic_except_random_witness :
    (0x1234 &&& 0xF000 ≠ 0xC000) ∧
    emulate 0 0x1234 (Chip8.new none) = emulate 7 0x1234 (Chip8.new none) :=
  ⟨by decide, dispatch_deterministic_except_random 0 7 0x1234 (Chip8.new none) (by decide)⟩

/-- C1: the source of `0xFx15`/`0xFx18` assigns the register selector `x`
itself — not the value `registers[x]` — to the delay/sound timer.  With
`registers[5] = 0x42`, dispatching `0xF515` sets `delay = 5` (not `0x42`),
and `0xF518` sets `sound = 5`. -/
theorem fx15_fx18_set_timer_to_selector :
    emulate 0 0xF515 { Chip8.new none with registers := upd (fun _ => 0) 5 0x42 }
      = some { Chip8.new none with registers := upd (fun _ => 0) 5 0x42, delay := 5 } ∧
    emulate 0 0xF518 { Chip8.new none with registers := upd (fun _ => 0) 5 0x42 }
      = some { Chip8.new none with registers := upd (fun _ => 0) 5 0x42, sound := 5 } ∧
    ({ Chip8.new none with registers := upd (fun _ => 0) 5 0x42 } : Chip8).registers 5 = 0x42 ∧
    (5 : Nat) ≠ 0x42 :=
  ⟨rfl, rfl, rfl, by decide⟩

/-- An opcode whose family nibble is nonzero is not the return opcode. -/
theorem ne_00EE_of_fam {op : Opcode} (hf : op &&& 0xF000 ≠ 0x0000) :
    op ≠ 0x00EE := by
  intro he
  subst he
  exact hf (by decide)

/-- C3: in every execution-loop cycle the opcode is fetched big-endian as
`(memory[counter] << 8) | memory[counter+1]` (the source adds the bytes,
which coincides with bitwise-or when the low byte is below 256), the opcode
is dispatched, and `counter` is then unconditionally incremented by 2 even
when dispatch itself modified it; consequently a cycle fetching a `0x1nnn`
jump leaves the counter at `nnn + 2`. -/
theorem run_cycle_jump_advance (rnd : Nat) (s : Chip8)
    (hc : s.counter + 1 < 0x1000) :
    (∀ s2, emulate rnd (fetch s) s = some s2 →
      stepRun rnd s = some { s2 with counter := s2.counter + 2 }) ∧
    (s.memory (s.counter + 1) < 256 →
      fetch s = ((s.memory s.counter) <<< 8) ||| s.memory (s.counter + 1)) ∧
    (fetch s &&& 0xF000 = 0x1000 →
      ∃ s', stepRun rnd s = some s' ∧ s'.counter = Opcode.nnn (fetch s) + 2) := by
  refine ⟨?_, ?_, ?_⟩
  · intro s2 h2
    simp [stepRun, hc, h2]
  · intro hb
    have hb' : s.memory (s.counter + 1) < 2 ^ 8 := by norm_num at hb ⊢; exact hb
    have hor := Nat.mul_add_lt_is_or hb' (s.memory s.counter)
    calc (s.memory s.counter) <<< 8 + s.memory (s.counter + 1)
        = 2 ^ 8 * s.memory s.counter + s.memory (s.counter + 1) := by
          rw [Nat.shiftLeft_eq, Nat.mul_comm]
      _ = 2 ^ 8 * s.memory s.counter ||| s.memory (s.counter + 1) := hor
      _ = (s.memory s.counter) <<< 8 ||| s.memory (s.counter + 1) := by
          rw [Nat.shiftLeft_eq, Nat.mul_comm]
  · intro hop
    have hdis : emulate rnd (fetch s) s
        = some { s with counter := Opcode.nnn (fetch s) } := by
      simp [emulate, hop]
    exact ⟨{ s with counter := Opcode.nnn (fetch s) + 2 }, by simp [stepRun, hc, hdis], rfl⟩

/-- C3 witness: with `0x12 0x34` in memory at the initial counter `0x200`,
one cycle of the loop fetches `0x1234` and ends with the counter at
`0x234 + 2`. -/
theorem run_cycle_jump_advance_witness :
    (({ Chip8.new none with
        memory := upd (upd (fun _ => 0) 0x200 0x12) 0x201 0x34 } : Chip8).counter + 1 < 0x1000) ∧
    (fetch { Chip8.new none with
        memory := upd (upd (fun _ => 0) 0x200 0x12) 0x201 0x34 } &&& 0xF000 = 0x1000) ∧
    ∃ s', stepRun 0 { Chip8.new none with
        memory := upd (upd (fun _ => 0) 0x200 0x12) 0x201 0x34 } = some s' ∧
      s'.counter = Opcode.nnn (fetch { Chip8.new none with
        memory := upd (upd (fun _ => 0) 0x200 0x12) 0x201 0x34 }) + 2 :=
  ⟨by decide, by decide,
    (run_cycle_jump_advance 0
      { Chip8.new none with
        memory := upd (upd (fun _ => 0) 0x200 0x12) 0x201 0x34 }
      (by decide)).2.2 (by decide)⟩

/-- C10: dispatch changes the stack only in two cases — family `0x2`
pushes exactly the current counter on top, and `0x00EE` removes exactly the
top element (which becomes the counter); every other opcode leaves the
stack exactly unchanged. -/
theorem stack_discipline (rnd : Nat) (op : Opcode) (s s' : Chip8)
    (h : emulate rnd op s = some s') :
    (op &&& 0xF000 = 0x2000 ∧ s'.stack = s.counter :: s.stack) ∨
    (op = 0x00EE ∧ s.stack = s'.counter :: s'.stack) ∨
    (op &&& 0xF000 ≠ 0x2000 ∧ op ≠ 0x00EE ∧ s'.stack = s.stack) := by
  by_cases h0 : op &&& 0xF000 = 0x0000
  · by_cases hE0 : op = 0x00E0
    · subst hE0
      refine Or.inr (Or.inr ⟨by decide, by decide, ?_⟩)
      have hf : (0x00E0 &&& 0xF000 : Nat) = 0x0000 := by decide
      simp [emulate, hf] at h
      cases hr : s.renderer with
      | some clear => rw [hr] at h; simp at h; rw [← h]
      | none => rw [hr] at h; simp at h; rw [← h]
    · by_cases hEE : op = 0x00EE
      · subst hEE
        refine Or.inr (Or.inl ⟨rfl, ?_⟩)
        have hf : (0x00EE &&& 0xF000 : Nat) = 0x0000 := by decide
        simp [emulate, hf] at h
        cases hs : s.stack with
        | nil => rw [hs] at h; simp at h
        | cons c rest => rw [hs] at h; simp at h; subst h; rfl
      · refine Or.inr (Or.inr ⟨by simp [h0], hEE, ?_⟩)
        simp [emulate, h0, hE0, hEE] at h
        rw [← h]
  · by_cases h1 : op &&& 0xF000 = 0x1000
    · refine Or.inr (Or.inr ⟨by simp [h1], ne_00EE_of_fam h0, ?_⟩)
      simp [emulate, h1] at h
      rw [← h]
    · by_cases h2 : op &&& 0xF000 = 0x2000
      · refine Or.inl ⟨h2, ?_⟩
        simp [emulate, h2] at h
        rw [← h]
      · refine Or.inr (Or.inr ⟨h2, ne_00EE_of_fam h0, ?_⟩)
        by_cases h3 : op &&& 0xF000 = 0x3000
        · simp [emulate, h3] at h
          rw [← h]; split <;> rfl
        · by_cases h4 : op &&& 0xF000 = 0x4000
          · simp [emulate, h4] at h
            rw [← h]; split <;> rfl
          · by_cases h5 : op &&& 0xF000 = 0x5000
            · simp [emulate, h5] at h
              rw [← h]; split <;> rfl
            · by_cases h6 : op &&& 0xF000 = 0x6000
              · simp [emulate, h6] at h
                rw [← h]
              · by_cases h7 : op &&& 0xF000 = 0x7000
                · simp [emulate, h7] at h
                  rw [← h]
                · by_cases h8 : op &&& 0xF000 = 0x8000
                  · simp [emulate, h8] at h
                    repeat' split at h
                    all_goals simp at h
                    all_goals rw [← h]
                  · by_cases h9 : op &&& 0xF000 = 0x9000
                    · simp [emulate, h9] at h
                      rw [← h]
                    · by_cases hA : op &&& 0xF000 = 0xA000
                      · simp [emulate, hA] at h
                        rw [← h]
                      · by_cases hB : op &&& 0xF000 = 0xB000
                        · simp [emulate, hB] at h
                          rw [← h]
                        · by_cases hC : op &&& 0xF000 = 0xC000
                          · simp [emulate, hC] at h
                            rw [← h]
                          · by_cases hD : op &&& 0xF000 = 0xD000
                            · simp [emulate, hD] at h
                              rw [← h]
                            · by_cases hE : op &&& 0xF000 = 0xE000
                              · simp [emulate, hE] at h
                                rw [← h]
                              · by_cases hF : op &&& 0xF000 = 0xF000
                                · simp [emulate, hF] at h
                                  repeat' split at h
                                  all_goals simp at h
                                  all_goals rw [← h]
                                · simp [emulate, h0, h1, h2, h3, h4, h5, h6, h7,
                                    h8, h9, hA, hB, hC, hD, hE, hF] at h
                                  rw [← h]

/-- C10 witness: dispatching the jump `0x1234` from the fresh state leaves
the stack unchanged (third case of the discipline). -/
theorem stack_discipline_witness :
    (emulate 0 0x1234 (Chip8.new none) = some { Chip8.new none with counter := 0x234 }) ∧
    ((0x1234 &&& 0xF000 = 0x2000 ∧
        ({ Chip8.new none with counter := 0x234 } : Chip8).stack
          = (Chip8.new none).counter :: (Chip8.new none).stack) ∨
      ((0x1234 : Opcode) = 0x00EE ∧
        (Chip8.new none).stack = ({ Chip8.new none with counter := 0x234 } : Chip8).counter
          :: ({ Chip8.new none with counter := 0x234 } : Chip8).stack) ∨
      (0x1234 &&& 0xF000 ≠ 0x2000 ∧ (0x1234 : Opcode) ≠ 0x00EE ∧
        ({ Chip8.new none with counter := 0x234 } : Chip8).stack = (Chip8.new none).stack)) :=
  ⟨rfl, stack_discipline 0 0x1234 (Chip8.new none) { Chip8.new none with counter := 0x234 } rfl⟩

/-- C8: dispatching any opcode the instruction table marks not-implemented
(families `0x9`, `0xD`, `0xE`; family `0x8` with mode `n ≥ 4`; family `0xF`
with a low byte outside the implemented set; family `0x0` other than
`0x00E0`/`0x00EE`) returns the state completely unchanged, and — except for
the silent empty block of mode 4 in family `0x8` — raises the observable
"not implemented" report. -/
theorem not_implemented_preserves_state (rnd : Nat) (op : Opcode) (s : Chip8)
    (h : op &&& 0xF000 = 0x9000 ∨ op &&& 0xF000 = 0xD000 ∨ op &&& 0xF000 = 0xE000 ∨
      (op &&& 0xF000 = 0x8000 ∧ 4 ≤ Opcode.n op) ∨
      (op &&& 0xF000 = 0xF000 ∧ Opcode.nn op ≠ 0x07 ∧ Opcode.nn op ≠ 0x15 ∧
        Opcode.nn op ≠ 0x18 ∧ Opcode.nn op ≠ 0x1E ∧ Opcode.nn op ≠ 0x55 ∧
        Opcode.nn op ≠ 0x65) ∨
      (op &&& 0xF000 = 0x0000 ∧ op ≠ 0x00E0 ∧ op ≠ 0x00EE)) :
    emulate rnd op s = some s ∧
      (emulateReports op = true ∨ (op &&& 0xF000 = 0x8000 ∧ Opcode.n op = 4)) := by
  rcases h with h9 | hD | hE | ⟨h8, hn⟩ | ⟨hF, c07, c15, c18, c1E, c55, c65⟩ | ⟨h0, cE0, cEE⟩
  · exact ⟨by simp [emulate, h9], Or.inl (by simp [emulateReports, h9])⟩
  · exact ⟨by simp [emulate, hD], Or.inl (by simp [emulateReports, hD])⟩
  · exact ⟨by simp [emulate, hE], Or.inl (by simp [emulateReports, hE])⟩
  · have hn0 : Opcode.n op ≠ 0 := by omega
    have hn1 : Opcode.n op ≠ 1 := by omega
    have hn2 : Opcode.n op ≠ 2 := by omega
    have hn3 : Opcode.n op ≠ 3 := by omega
    refine ⟨by simp [emulate, h8, hn0, hn1, hn2, hn3], ?_⟩
    by_cases hn4 : Opcode.n op = 4
    · exact Or.inr ⟨h8, hn4⟩
    · have hn5 : 5 ≤ Opcode.n op := by omega
      exact Or.inl (by simp [emulateReports, h8, hn5])
  · refine ⟨by simp [emulate, hF, c07, c15, c18, c1E, c55, c65], Or.inl ?_⟩
    simp [emulateReports, hF]
    tauto
  · refine ⟨by simp [emulate, h0, cE0, cEE], Or.inl ?_⟩
    simp [emulateReports, h0, cE0, cEE]

/-- C8 witness: `0x9123` (skip-if-not-equal, unimplemented) is dispatched
with no state change and the report raised. -/
theorem not_implemented_preserves_state_witness :
    ((0x9123 &&& 0xF000 : Nat) = 0x9000) ∧
    (emulate 0 0x9123 (Chip8.new none) = some (Chip8.new none) ∧
      (emulateReports 0x9123 = true ∨
        ((0x9123 &&& 0xF000 : Nat) = 0x8000 ∧ Opcode.n 0x9123 = 4))) :=
  ⟨by decide,
    not_implemented_preserves_state 0 0x9123 (Chip8.new none) (Or.inl (by decide))⟩

/-- The `0xFx55` write loop succeeds when the whole range fits in memory,
writes `regs i` at `idx + i` for each `i` below `n`, and leaves every cell
outside `[idx, idx + n)` untouched. -/
theorem storeLoop_ok (regs mem : Nat → Nat) (idx n : Nat) (h : idx + n ≤ 0x1000) :
    ∃ m, storeLoop regs mem idx n = some m ∧
      (∀ i, i < n → m (idx + i) = regs i) ∧
      (∀ a, a < idx ∨ idx + n ≤ a → m a = mem a) := by
  induction n with
  | zero =>
    exact ⟨mem, rfl, fun i hi => absurd hi (by omega), fun a _ => rfl⟩
  | succ k ih =>
    obtain ⟨m, hm, hin, hout⟩ := ih (by omega)
    refine ⟨upd m (idx + k) (regs k), ?_, ?_, ?_⟩
    · simp only [storeLoop, hm]
      rw [if_pos (by omega)]
    · intro i hi
      by_cases hik : i = k
      · subst hik
        simp [upd]
      · show (if idx + i = idx + k then regs k else m (idx + i)) = regs i
        rw [if_neg (by omega)]
        exact hin i (by omega)
    · intro a ha
      show (if a = idx + k then regs k else m a) = mem a
      rw [if_neg (by omega)]
      exact hout a (by omega)

/-- The `0xFx65` read loop succeeds when the whole range fits in memory,
sets register `i` to `mem (idx + i)` for each `i` below `n`, and leaves
every register from `n` upward untouched. -/
theorem loadLoop_ok (regs mem : Nat → Nat) (idx n : Nat) (h : idx + n ≤ 0x1000) :
    ∃ r, loadLoop regs mem idx n = some r ∧
      (∀ i, i < n → r i = mem (idx + i)) ∧
      (∀ j, n ≤ j → r j = regs j) := by
  induction n with
  | zero =>
    exact ⟨regs, rfl, fun i hi => absurd hi (by omega), fun j _ => rfl⟩
  | succ k ih =>
    obtain ⟨r, hr, hin, hout⟩ := ih (by omega)
    refine ⟨upd r k (mem (idx + k)), ?_, ?_, ?_⟩
    · simp only [loadLoop, hr]
      rw [if_pos (by omega)]
    · intro i hi
      by_cases hik : i = k
      · subst hik
        simp [upd]
      · show (if i = k then mem (idx + k) else r i) = mem (idx + i)
        rw [if_neg hik]
        exact hin i (by omega)
    · intro j hj
      show (if j = k then mem (idx + k) else r j) = regs j
      rw [if_neg (by omega)]
      exact hout j (by omega)

/-- C4: with `index + x < 4096`, dispatching `0xFx55` stores
`registers[0..=x]` into `memory[index .. index + x]` inclusive in ascending
register order (exactly `x + 1` bytes, all other memory unchanged);
dispatching `0xFx65` then loads that inclusive range back, and a store
followed by arbitrary register overwriting followed by a load restores the
original values of `registers[0..=x]` (registers above `x` keep the
overwritten values). -/
theorem store_load_roundtrip (rnd1 rnd2 : Nat) (op1 op2 : Opcode) (s : Chip8)
    (r' : Nat → Nat)
    (hx : s.index + Opcode.x op1 < 0x1000)
    (h1f : op1 &&& 0xF000 = 0xF000) (h1n : Opcode.nn op1 = 0x55)
    (h2f : op2 &&& 0xF000 = 0xF000) (h2n : Opcode.nn op2 = 0x65)
    (hxx : Opcode.x op2 = Opcode.x op1) :
    ∃ s1, emulate rnd1 op1 s = some s1 ∧
      (∀ i, i ≤ Opcode.x op1 → s1.memory (s.index + i) = s.registers i) ∧
      (∀ a, a < s.index ∨ s.index + Opcode.x op1 + 1 ≤ a → s1.memory a = s.memory a) ∧
      s1.registers = s.registers ∧ s1.index = s.index ∧ s1.counter = s.counter ∧
      s1.stack = s.stack ∧
      ∃ s3, emulate rnd2 op2 { s1 with registers := r' } = some s3 ∧
        (∀ i, i ≤ Opcode.x op1 → s3.registers i = s.registers i) ∧
        (∀ j, Opcode.x op1 < j → s3.registers j = r' j) := by
  obtain ⟨m, hm, hin, hout⟩ :=
    storeLoop_ok s.registers s.memory s.index (Opcode.x op1 + 1) (by omega)
  refine ⟨{ s with memory := m }, ?_, ?_, ?_, rfl, rfl, rfl, rfl, ?_⟩
  · simp [emulate, h1f, h1n, hm]
  · intro i hi
    exact hin i (by omega)
  · intro a ha
    exact hout a (by omega)
  · obtain ⟨r2, hr2, hin2, hout2⟩ :=
      loadLoop_ok r' m s.index (Opcode.x op1 + 1) (by omega)
    refine ⟨{ s with memory := m, registers := r2 }, ?_, ?_, ?_⟩
    · simp [emulate, h2f, h2n, hxx, hr2]
    · intro i hi
      show r2 i = s.registers i
      rw [hin2 i (by omega)]
      exact hin i (by omega)
    · intro j hj
      show r2 j = r' j
      exact hout2 j (by omega)

/-- The register bank `{1, 2, 3, 4, 0, 0, …}` of the spec's block-transfer
example. -/
def demoRegs : Nat → Nat :=
  upd (upd (upd (upd (fun _ => 0) 0 1) 1 2) 2 3) 3 4

/-- The spec's block-transfer example state: registers `{1,2,3,4}`,
`index = 0x300`. -/
def demoState : Chip8 :=
  { Chip8.new none with registers := demoRegs, index := 0x300 }

/-- C4 witness: with registers `{1,2,3,4}` and `index = 0x300`, the store
opcode `0xF355` followed by zeroing the registers and the load opcode
`0xF365` restores registers `{1,2,3,4}`. -/
theorem store_load_roundtrip_witness :
    (demoState.index + Opcode.x 0xF355 < 0x1000) ∧
    ((0xF355 &&& 0xF000 : Nat) = 0xF000) ∧ (Opcode.nn 0xF355 = 0x55) ∧
    ((0xF365 &&& 0xF000 : Nat) = 0xF000) ∧ (Opcode.nn 0xF365 = 0x65) ∧
    (Opcode.x 0xF365 = Opcode.x 0xF355) ∧
    ∃ s1, emulate 0 0xF355 demoState = some s1 ∧
      s1.memory 0x300 = 1 ∧ s1.memory 0x301 = 2 ∧
      s1.memory 0x302 = 3 ∧ s1.memory 0x303 = 4 ∧
      ∃ s3, emulate 0 0xF365 { s1 with registers := fun _ => 0 } = some s3 ∧
        s3.registers 0 = 1 ∧ s3.registers 1 = 2 ∧
        s3.registers 2 = 3 ∧ s3.registers 3 = 4 := by
  refine ⟨by decide, by decide, by decide, by decide, by decide, by decide, ?_⟩
  obtain ⟨s1, h1, hmem, -, -, -, -, -, s3, h3, hres, -⟩ :=
    store_load_roundtrip 0 0 0xF355 0xF365 demoState (fun _ => 0) (by decide)
      (by decide) (by decide) (by decide) (by decide) (by decide)
  refine ⟨s1, h1, ?_, ?_, ?_, ?_, s3, h3, ?_, ?_, ?_, ?_⟩
  · simpa [demoState, demoRegs, upd, Chip8.new] using hmem 0 (by decide)
  · simpa [demoState, demoRegs, upd, Chip8.new] using hmem 1 (by decide)
  · simpa [demoState, demoRegs, upd, Chip8.new] using hmem 2 (by decide)
  · simpa [demoState, demoRegs, upd, Chip8.new] using hmem 3 (by decide)
  · simpa [demoState, demoRegs, upd, Chip8.new] using hres 0 (by decide)
  · simpa [demoState, demoRegs, upd, Chip8.new] using hres 1 (by decide)
  · simpa [demoState, demoRegs, upd, Chip8.new] using hres 2 (by decide)
  · simpa [demoState, demoRegs, upd, Chip8.new] using hres 3 (by decide)

/-- C2 counterexample: an image of exactly `4096 − 200 = 3896` bytes passes
the loader's size check but the copy slices `memory[0x200 .. 0x200 + 3896]`
out of the 4096-byte array, so the load panics instead of succeeding. -/
theorem load_file_full_capacity_panics :
    load_file (Chip8.new none) (List.replicate 3896 0) = LoadResult.panic := by
  simp only [load_file, List.length_replicate]
  rw [if_neg (by omega), if_pos (by omega)]

/-- C2 (amended): the loader fails with the capacity error exactly when the
image's length exceeds `4096 − 200` bytes (and on that path the state is
untouched — no write precedes the check); an image of at most
`4096 − 0x200 = 3584` bytes loads successfully, copying it verbatim into
memory starting at `0x200` and leaving all other memory cells and every
other state component unchanged; an image whose length lies strictly
between `3584` and `3896` inclusive passes the size check but panics on the
out-of-range memory slice. -/
theorem load_file_spec (s : Chip8) (p : List Nat) :
    (load_file s p = LoadResult.capacityError ↔ 0x1000 - 200 < p.length) ∧
    (p.length ≤ 0x1000 - 0x200 →
      ∃ s', load_file s p = LoadResult.ok s' ∧
        (∀ i, i < p.length → s'.memory (0x200 + i) = p.getD i 0) ∧
        (∀ a, a < 0x200 ∨ 0x200 + p.length ≤ a → s'.memory a = s.memory a) ∧
        s'.registers = s.registers ∧ s'.stack = s.stack ∧ s'.index = s.index ∧
        s'.counter = s.counter ∧ s'.delay = s.delay ∧ s'.sound = s.sound ∧
        s'.screen = s.screen) ∧
    (0x1000 - 0x200 < p.length → p.length ≤ 0x1000 - 200 →
      load_file s p = LoadResult.panic) := by
  refine ⟨?_, ?_, ?_⟩
  · by_cases hlen : 0x1000 - 200 < p.length
    · simp [load_file, hlen]
    · simp only [load_file]
      rw [if_neg (by omega)]
      constructor
      · intro hc
        exfalso
        split at hc <;> simp at hc
      · intro hgt
        exact absurd hgt hlen
  · intro hle
    have h1 : ¬(p.length > 0x1000 - 200) := by omega
    have h2 : ¬(0x200 + p.length > 0x1000) := by omega
    refine ⟨{ s with memory := (fun a =>
        if 0x200 ≤ a ∧ a < 0x200 + p.length then p.getD (a - 0x200) 0
        else s.memory a) }, ?_, ?_, ?_, rfl, rfl, rfl, rfl, rfl, rfl, rfl⟩
    · simp only [load_file]
      rw [if_neg h1, if_neg h2]
    · intro i hi
      show (if 0x200 ≤ 0x200 + i ∧ 0x200 + i < 0x200 + p.length
        then p.getD (0x200 + i - 0x200) 0 else s.memory (0x200 + i)) = p.getD i 0
      rw [if_pos ⟨by omega, by omega⟩]
      congr 1
      omega
    · intro a ha
      show (if 0x200 ≤ a ∧ a < 0x200 + p.length
        then p.getD (a - 0x200) 0 else s.memory a) = s.memory a
      rw [if_neg (by omega)]
  · intro hgt hle
    simp only [load_file]
    rw [if_neg (by omega), if_pos (by omega)]

/-- C2 witness: a one-byte image loads successfully, its byte lands at
`0x200`, and the reserved region below `0x200` stays zero. -/
theorem load_file_spec_witness :
    (([7] : List Nat).length ≤ 0x1000 - 0x200) ∧
    ∃ s', load_file (Chip8.new none) [7] = LoadResult.ok s' ∧
      s'.memory 0x200 = 7 ∧ s'.memory 0x1FF = 0 := by
  refine ⟨by decide, ?_⟩
  obtain ⟨s', hok, hin, hout, -⟩ :=
    (load_file_spec (Chip8.new none) [7]).2.1 (by decide)
  refine ⟨s', hok, ?_, ?_⟩
  · simpa using hin 0 (by decide)
  · rw [hout 0x1FF (Or.inl (by decide))]
    rfl
